import Mathlib

/-!
Verification development for the CalmTrace stress-inference core
(`backend/app/services/stress_prediction_service.py`).

The Python service is shallowly embedded over `ℚ`:

* `extract_eeg_features` / `extract_ecg_features` — deterministic feature
  extraction into fixed-length rational vectors.  Numeric kernels whose exact
  values are irrational or library-defined (standard deviation, skewness,
  kurtosis, Welch band powers, wavelet decomposition) are threaded through a
  `StatOracle` parameter; every theorem below quantifies over all oracles, so
  nothing proved depends on the omitted numerics.  All other statistics
  (mean, min, max, median, percentiles, variance, first differences,
  peak-to-peak, energies) are computed exactly over `ℚ`.
* `predict_stress` — the strategy-selection dispatcher; a trained
  model/scaler pair is a `ModelPath` of fallible (`Except`-valued) functions,
  mirroring the `try/except` around scaling and classification.
* `load_models` — the startup loader, driven by a `Disk` description of
  which model/scaler pairs exist on disk and whether loading them raises.
* `get_feature_contributions` — the explainability estimator.

`timestamp` is the only output field that is not modelled (wall-clock time).
-/

/-- Python `int(q)`: truncation toward zero. -/
def pytrunc (q : ℚ) : ℤ :=
  if 0 ≤ q then Rat.floor q else Rat.ceil q

/-- Round to nearest integer, ties to even (Python `round`). -/
def rne (q : ℚ) : ℤ :=
  if q - Rat.floor q = 1/2 then
    (if Rat.floor q % 2 = 0 then Rat.floor q else Rat.floor q + 1)
  else
    Rat.floor (q + 1/2)

/-- Python `round(q, 1)`. -/
def round1 (q : ℚ) : ℚ := (rne (q * 10) : ℚ) / 10

/-- `features[:n]` followed by zero-padding up to length `n`
(the final shape-fixing step of both extractors). -/
def fitTo (n : ℕ) (xs : List ℚ) : List ℚ :=
  xs.take n ++ List.replicate (n - xs.length) 0

/-- `np.mean` (empty input never reaches this in guarded code). -/
def meanQ (xs : List ℚ) : ℚ := xs.sum / xs.length

/-- `np.min` of a nonempty list. -/
def minQ (xs : List ℚ) : ℚ :=
  match xs with
  | [] => 0
  | h :: t => t.foldl min h

/-- `np.max` of a nonempty list. -/
def maxQ (xs : List ℚ) : ℚ :=
  match xs with
  | [] => 0
  | h :: t => t.foldl max h

/-- Ascending sort. -/
def sortQ (xs : List ℚ) : List ℚ := xs.insertionSort (· ≤ ·)

/-- `np.percentile` with the default linear interpolation. -/
def percentileQ (xs : List ℚ) (q : ℚ) : ℚ :=
  let s := sortQ xs
  match s with
  | [] => 0
  | _ =>
    let h : ℚ := ((s.length : ℚ) - 1) * q / 100
    let lo : ℕ := (Rat.floor h).toNat
    let x0 := s.getD lo 0
    let x1 := s.getD (lo + 1) x0
    x0 + (h - (lo : ℚ)) * (x1 - x0)

/-- `np.median` (equals the 50th percentile with linear interpolation). -/
def medianQ (xs : List ℚ) : ℚ := percentileQ xs 50

/-- `np.ptp`: peak-to-peak range. -/
def ptpQ (xs : List ℚ) : ℚ := maxQ xs - minQ xs

/-- `np.diff`: first differences. -/
def diffQ (xs : List ℚ) : List ℚ :=
  match xs with
  | [] => []
  | _ :: t => List.zipWith (fun b a => b - a) t xs

/-- `np.var`: population variance (mean squared deviation). -/
def varQ (xs : List ℚ) : ℚ := meanQ (xs.map (fun x => (x - meanQ xs)^2))

/-- `np.mean(np.abs(·))`. -/
def meanAbsQ (xs : List ℚ) : ℚ := meanQ (xs.map (fun x => |x|))

/-- `np.sum(coeff ** 2)`: wavelet energy. -/
def energyQ (xs : List ℚ) : ℚ := (xs.map (fun x => x^2)).sum

/-- `len(d[np.abs(d) > 50]) / len(d)`: the pNN50 statistic on a
difference series. -/
def pnn50Q (d : List ℚ) : ℚ :=
  if d.length > 0 then ((d.filter (fun x => 50 < |x|)).length : ℚ) / d.length
  else 0

/-- Numeric kernels of the extractors whose exact values are library-defined
or irrational; every theorem quantifies over all oracles. -/
structure StatOracle where
  /-- `np.sqrt` on a nonnegative rational (used by `np.std` and RMSSD). -/
  sqrtQ : ℚ → ℚ
  /-- `scipy.stats.skew`. -/
  skewQ : List ℚ → ℚ
  /-- `scipy.stats.kurtosis`. -/
  kurtQ : List ℚ → ℚ
  /-- Welch PSD band power for each of the 5 canonical EEG bands. -/
  welchBand : List ℚ → ℕ → Fin 5 → ℚ
  /-- `pywt.wavedec(signal, 'db4', level=4)`: the coefficient arrays, or
  `none` when the library call raises (the `except` branch). -/
  wavedec : List ℚ → Option (List (List ℚ))

/-- `np.std` = square root of the population variance. -/
def stdQ (o : StatOracle) (xs : List ℚ) : ℚ := o.sqrtQ (varQ xs)

/-- A concrete oracle used to evaluate witnesses (integer-square-root based). -/
def defaultOracle : StatOracle where
  sqrtQ q := (Nat.sqrt q.num.toNat : ℚ) / (Nat.sqrt q.den : ℚ)
  skewQ _ := 0
  kurtQ _ := 0
  welchBand _ _ _ := 0
  wavedec xs := some [xs, [], [], [], []]

/-! ## EEG feature extraction (`extract_eeg_features`) -/

/-- The 14 EMOTIV channel names, in the fixed order the extractor walks. -/
def EEG_CHANNELS : List String :=
  ["AF3", "F7", "F3", "FC5", "T7", "P7", "O1", "O2",
   "P8", "T8", "FC6", "F4", "F8", "AF4"]

/-- `while len(features) % 37 != 0: features.append(0.0)` — pads the running
feature list to a multiple of 37. -/
def padToMult37 (xs : List ℚ) : List ℚ :=
  xs ++ List.replicate ((37 - xs.length % 37) % 37) 0

/-- The features appended for one channel.  `prevLen` is the length of the
feature list accumulated so far (the wavelet `while`-padding in the source
looks at the total length, not the per-channel block). -/
def channelBlock (o : StatOracle) (samplingRate : ℕ) (prevLen : ℕ)
    (sig? : Option (List ℚ)) : List ℚ :=
  match sig? with
  | none => List.replicate 37 0
  | some sig =>
    if sig.isEmpty then List.replicate 37 0
    else
      let timeDom := [meanQ sig, stdQ o sig, minQ sig, maxQ sig, medianQ sig]
      let moments := [if sig.length > 2 then o.skewQ sig else 0,
                      if sig.length > 3 then o.kurtQ sig else 0]
      let bands := if sig.length ≥ samplingRate then
          List.ofFn (fun i : Fin 5 => o.welchBand sig samplingRate i)
        else List.replicate 5 0
      let before := timeDom ++ moments ++ bands
      match o.wavedec sig with
      | some coeffs =>
        let wav := (coeffs.map (fun c => [meanAbsQ c, stdQ o c, energyQ c])).flatten
        let blk := before ++ wav
        blk ++ List.replicate ((37 - (prevLen + blk.length) % 37) % 37) 0
      | none => before ++ List.replicate 15 0

/-- The raw concatenation of the 14 channel blocks (before shape fixing). -/
def rawEegFeatures (o : StatOracle) (eegData : List (String × List ℚ))
    (samplingRate : ℕ) : List ℚ :=
  EEG_CHANNELS.foldl
    (fun acc ch =>
      acc ++ channelBlock o samplingRate acc.length (eegData.lookup ch))
    []

/-- `StressPredictionService.extract_eeg_features`. -/
def extract_eeg_features (o : StatOracle) (eegData : List (String × List ℚ))
    (samplingRate : ℕ := 128) : List ℚ :=
  fitTo 513 (rawEegFeatures o eegData samplingRate)

/-! ## Cardiac feature extraction (`extract_ecg_features`) -/

/-- One 24-length cardiac block: 8 descriptive statistics, 4 first-difference
variability statistics (zeros when fewer than 2 samples), 12 zeros of
padding; an absent or empty series gives an all-zero block.  `fourthStat` is
pNN50 for the HRV block and `np.var` for the RR and HR blocks. -/
def cardiacBlock (o : StatOracle) (fourthStat : List ℚ → ℚ)
    (vals? : Option (List ℚ)) : List ℚ :=
  match vals? with
  | none => List.replicate 24 0
  | some v =>
    if v.isEmpty then List.replicate 24 0
    else
      ([meanQ v, stdQ o v, minQ v, maxQ v,
        medianQ v, percentileQ v 25, percentileQ v 75, ptpQ v]
       ++ (if v.length > 1 then
             let d := diffQ v
             [o.sqrtQ (meanQ (d.map (fun x => x^2))),
              meanQ (d.map (fun x => |x|)),
              stdQ o d,
              fourthStat d]
           else List.replicate 4 0)
       ++ List.replicate 12 0)

/-- `StressPredictionService.extract_ecg_features`. -/
def extract_ecg_features (o : StatOracle) (hrv? rr? hr? : Option (List ℚ)) :
    List ℚ :=
  fitTo 72 (cardiacBlock o pnn50Q hrv?
            ++ cardiacBlock o varQ rr?
            ++ cardiacBlock o varQ hr?)

/-! ## Models, service state, prediction results -/

/-- A loaded model/scaler pair for one strategy path.  Both stages may raise
(`Except.error` carries `str(e)`), mirroring the `try/except` in
`predict_stress`.  `classify` returns the 2-class probability row
`(p_normal, p_stress)`. -/
structure ModelPath where
  transform : List ℚ → Except String (List ℚ)
  classify : List ℚ → Except String (ℚ × ℚ)

/-- The mutable fields of `StressPredictionService` relevant to prediction. -/
structure ServiceState where
  fusion : Option ModelPath
  eeg : Option ModelPath
  ecg : Option ModelPath
  loaded : Bool

/-- The `data_sources` sub-dict of a successful prediction. -/
structure DataSources where
  eeg : Bool
  hrv : Bool
  rr : Bool
  hr : Bool
deriving DecidableEq, Repr

/-- The result dict of `predict_stress`; absent keys are `none`
(`timestamp` is not modelled). -/
structure PredictionResult where
  stress_level : Option ℤ
  stress_class : Option String
  confidence : Option ℚ
  model_used : Option String
  prediction_raw : Option (List ℚ)
  data_sources : Option DataSources
  emotiv_echo : Option (List (String × ℚ))
  error : Option String
deriving DecidableEq, Repr

/-- The error-result shape
`{"error": msg, "stress_level": None, "confidence": None}`. -/
def errorResult (msg : String) : PredictionResult :=
  { stress_level := none, stress_class := none, confidence := none,
    model_used := none, prediction_raw := none, data_sources := none,
    emotiv_echo := none, error := some msg }

/-- `eeg_data is not None and len(eeg_data) > 0`. -/
def hasEegData (eeg? : Option (List (String × List ℚ))) : Bool :=
  match eeg? with
  | none => false
  | some d => !d.isEmpty

/-- Python truthiness of an optional series: non-`None` and nonempty. -/
def nonemptyOpt (xs? : Option (List ℚ)) : Bool :=
  match xs? with
  | none => false
  | some xs => !xs.isEmpty

/-- `(hrv_values and len(hrv_values) > 0) or (rr_values and len(rr_values) > 0)`
— HR alone never makes cardiac data usable. -/
def hasEcgData (hrv? rr? : Option (List ℚ)) : Bool :=
  nonemptyOpt hrv? || nonemptyOpt rr?

/-- `d.get(key, default)` on the EMOTIV metrics dict. -/
def getMetric (m : List (String × ℚ)) (key : String) (dflt : ℚ) : ℚ :=
  match m.lookup key with
  | none => dflt
  | some v => v

/-- The result dict the three model strategies build (their bodies are
identical in the source: argmax class, argmax probability ×100 rounded to
one decimal as confidence, stress-class probability ×100 truncated to `int`
as stress level). `p = (p_normal, p_stress)` is the classifier row. -/
def modelRecord (p : ℚ × ℚ) (mu : String) (ds : DataSources) :
    PredictionResult :=
  { stress_level := some (pytrunc (p.2 * 100)),
    stress_class := some (if p.1 < p.2 then "stress" else "normal"),
    confidence := some (round1 ((if p.1 < p.2 then p.2 else p.1) * 100)),
    model_used := some mu,
    prediction_raw := some [p.1, p.2],
    data_sources := some ds,
    emotiv_echo := none, error := none }

/-- Scale, classify, and build the result dict (shared body of the three
`_predict_*` model strategies; either stage may raise). -/
def runModel (mp : ModelPath) (x : List ℚ) (mu : String) (ds : DataSources) :
    Except String PredictionResult := do
  let scaled ← mp.transform x
  let p ← mp.classify scaled
  pure (modelRecord p mu ds)

/-- `StressPredictionService._predict_fusion`. -/
def predictFusion (o : StatOracle) (mp : ModelPath)
    (eegData : List (String × List ℚ)) (hrv? rr? hr? : Option (List ℚ)) :
    Except String PredictionResult :=
  runModel mp
    (extract_eeg_features o eegData ++ extract_ecg_features o hrv? rr? hr?)
    "fusion" ⟨true, true, true, hr?.isSome⟩

/-- `StressPredictionService._predict_eeg_only`. -/
def predictEegOnly (o : StatOracle) (mp : ModelPath)
    (eegData : List (String × List ℚ)) : Except String PredictionResult :=
  runModel mp (extract_eeg_features o eegData) "eeg_only"
    ⟨true, false, false, false⟩

/-- `StressPredictionService._predict_ecg_only`. -/
def predictEcgOnly (o : StatOracle) (mp : ModelPath)
    (hrv? rr? hr? : Option (List ℚ)) : Except String PredictionResult :=
  runModel mp (extract_ecg_features o hrv? rr? hr?) "ecg_only"
    ⟨false, nonemptyOpt hrv?, nonemptyOpt rr?, nonemptyOpt hr?⟩

/-- `StressPredictionService._predict_from_emotiv_metrics` (cannot raise). -/
def predictEmotiv (m : List (String × ℚ)) : PredictionResult :=
  let stress := getMetric m "stress" (1/2)
  let relaxation := getMetric m "relaxation" (1/2)
  let stressLevel := (stress * (7/10) + (1 - relaxation) * (3/10)) * 100
  { stress_level := some (pytrunc stressLevel),
    stress_class := some (if 50 < stressLevel then "stress" else "normal"),
    confidence := some 70,
    model_used := some "emotiv_metrics",
    prediction_raw := none,
    data_sources := some ⟨false, false, false, false⟩,
    emotiv_echo := some m, error := none }

/-- The `try` block of `predict_stress`: strategy dispatch, with any raise
from scaling/classification surfacing as `Except.error`. -/
def dispatchE (o : StatOracle) (st : ServiceState)
    (eeg? : Option (List (String × List ℚ))) (hrv? rr? hr? : Option (List ℚ))
    (metrics? : Option (List (String × ℚ))) : Except String PredictionResult :=
  if h : hasEegData eeg? = true ∧ hasEcgData hrv? rr? = true
         ∧ st.fusion.isSome then
    predictFusion o (st.fusion.get h.2.2) (eeg?.getD []) hrv? rr? hr?
  else if h : hasEegData eeg? = true ∧ st.eeg.isSome then
    predictEegOnly o (st.eeg.get h.2) (eeg?.getD [])
  else if h : hasEcgData hrv? rr? = true ∧ st.ecg.isSome then
    predictEcgOnly o (st.ecg.get h.2) hrv? rr? hr?
  else if metrics?.isSome then
    Except.ok (predictEmotiv (metrics?.getD []))
  else
    Except.ok (errorResult "No valid sensor data provided")

/-- The `except` clause: a raised message becomes the error-result dict. -/
def except2res (e : Except String PredictionResult) : PredictionResult :=
  match e with
  | Except.ok r => r
  | Except.error msg => errorResult msg

/-- `StressPredictionService.predict_stress`. -/
def predict_stress (o : StatOracle) (st : ServiceState)
    (eeg? : Option (List (String × List ℚ))) (hrv? rr? hr? : Option (List ℚ))
    (metrics? : Option (List (String × ℚ))) : PredictionResult :=
  if st.loaded = false then errorResult "Models not loaded"
  else except2res (dispatchE o st eeg? hrv? rr? hr? metrics?)

/-! ## Startup model loading (`load_models`) -/

/-- What the models directory holds for one strategy path: whether both the
model file and the scaler file exist, and — when they do — whether loading
them succeeds or raises. -/
structure PairSpec where
  present : Bool
  outcome : Except String ModelPath

/-- The models directory contents for the three paths. -/
structure Disk where
  fusion : PairSpec
  eeg : PairSpec
  ecg : PairSpec

/-- Loading one path: skipped (`none`) when a file is missing, otherwise the
load outcome. -/
def tryLoadPair (p : PairSpec) : Except String (Option ModelPath) :=
  if p.present then p.outcome.map some else Except.ok none

/-- Service state after `__init__`. -/
def initialServiceState : ServiceState :=
  { fusion := none, eeg := none, ecg := none, loaded := false }

/-- `StressPredictionService.load_models`: sequential loads inside one
`try`; a raise is caught, keeps the models assigned so far, leaves
`_loaded` at `False` and returns `False`.  On the non-raising path
`_loaded := (fusion model is loaded)` and that flag is returned. -/
def load_models (d : Disk) : ServiceState × Bool :=
  match tryLoadPair d.fusion with
  | Except.error _ => (initialServiceState, false)
  | Except.ok mf =>
    match tryLoadPair d.eeg with
    | Except.error _ => ({ initialServiceState with fusion := mf }, false)
    | Except.ok me =>
      match tryLoadPair d.ecg with
      | Except.error _ =>
        ({ initialServiceState with fusion := mf, eeg := me }, false)
      | Except.ok mc =>
        ({ fusion := mf, eeg := me, ecg := mc, loaded := mf.isSome },
         mf.isSome)

/-! ## Strategy observation and the spec-side selection table -/

/-- The five possible outcomes of strategy selection. -/
inductive Strategy where
  | fusionS
  | eegOnlyS
  | ecgOnlyS
  | heuristicS
  | errorS
deriving DecidableEq, Repr

/-- Which strategy a result shows: read off the `model_used` field
(`"emotiv_metrics"` is the label the code gives the heuristic path). -/
def observedStrategy (r : PredictionResult) : Strategy :=
  match r.model_used with
  | some "fusion" => Strategy.fusionS
  | some "eeg_only" => Strategy.eegOnlyS
  | some "ecg_only" => Strategy.ecgOnlyS
  | some "emotiv_metrics" => Strategy.heuristicS
  | _ => Strategy.errorS

/-- The `model_used` label the code attaches to each executed strategy. -/
def strategyLabel (s : Strategy) : Option String :=
  match s with
  | Strategy.fusionS => some "fusion"
  | Strategy.eegOnlyS => some "eeg_only"
  | Strategy.ecgOnlyS => some "ecg_only"
  | Strategy.heuristicS => some "emotiv_metrics"
  | Strategy.errorS => none

/-- The branch of the `if/elif` chain in `predict_stress` that fires
(not consulted before the `_loaded` guard passes). -/
def chooseStrategy (st : ServiceState) (hEeg hEcg metricsPresent : Bool) :
    Strategy :=
  if hEeg = true ∧ hEcg = true ∧ st.fusion.isSome then Strategy.fusionS
  else if hEeg = true ∧ st.eeg.isSome then Strategy.eegOnlyS
  else if hEcg = true ∧ st.ecg.isSome then Strategy.ecgOnlyS
  else if metricsPresent then Strategy.heuristicS
  else Strategy.errorS

/-- Modelled from the spec: the claimed strict-priority truth table over the
six availability flags (fusion > eeg_only > ecg_only > heuristic > error),
used as the refinement reference for the selection claims. -/
def selectStrategySpec (hasEeg hasCardiac fusionLoaded eegLoaded ecgLoaded
    metricsPresent : Bool) : Strategy :=
  if hasEeg && hasCardiac && fusionLoaded then Strategy.fusionS
  else if hasEeg && eegLoaded then Strategy.eegOnlyS
  else if hasCardiac && ecgLoaded then Strategy.ecgOnlyS
  else if metricsPresent then Strategy.heuristicS
  else Strategy.errorS

/-- A model path whose stages never raise. -/
def NoRaisePath (mp : ModelPath) : Prop :=
  (∀ v, ∃ w, mp.transform v = Except.ok w)
  ∧ (∀ v, ∃ p, mp.classify v = Except.ok p)

/-- All loaded paths of a state never raise. -/
def NoRaiseState (st : ServiceState) : Prop :=
  (∀ mp, st.fusion = some mp → NoRaisePath mp)
  ∧ (∀ mp, st.eeg = some mp → NoRaisePath mp)
  ∧ (∀ mp, st.ecg = some mp → NoRaisePath mp)

/-! ## Explainability estimator (`get_feature_contributions`) -/

/-- `series and len(series) > 1`: usable for variance-based weighting. -/
def usableSeries (xs? : Option (List ℚ)) : Bool :=
  match xs? with
  | none => false
  | some xs => decide (xs.length > 1)

/-- The `weights` dict, in insertion order (hrv, rr, hr, eeg). -/
def weightEntries (hrv? rr? hr? : Option (List ℚ))
    (eeg? : Option (List (String × List ℚ))) : List (String × ℚ) :=
  (if usableSeries hrv? then [("hrv", 1 + varQ (hrv?.getD []) / 100)] else [])
  ++ (if usableSeries rr? then [("rr", 4/5 + varQ (rr?.getD []) / 10)] else [])
  ++ (if usableSeries hr? then [("hr", 1/2 + varQ (hr?.getD []) / 50)] else [])
  ++ (if hasEegData eeg? then [("eeg", 3/2)] else [])

/-- The return value of `get_feature_contributions`. -/
structure ContributionBreakdown where
  contributions : List (String × ℚ)
  descriptions : List (String × String)
deriving DecidableEq, Repr

/-- `StressPredictionService.get_feature_contributions`. -/
def get_feature_contributions (eeg? : Option (List (String × List ℚ)))
    (hrv? rr? hr? : Option (List ℚ)) : ContributionBreakdown :=
  let weights := weightEntries hrv? rr? hr? eeg?
  let totalWeight := (weights.map Prod.snd).sum
  let contributions :=
    if 0 < totalWeight then
      weights.map (fun kw => (kw.1, round1 (kw.2 / totalWeight * 100)))
    else []
  let descriptions :=
    (if usableSeries hrv? then
       let m := meanQ (hrv?.getD [])
       [("hrv", if m < 30 then
           "Low variability detected, suggesting sympathetic nervous system activation."
         else if 60 < m then
           "Good variability indicating parasympathetic dominance."
         else "Moderate heart rate variability observed.")]
     else [])
    ++ (if usableSeries rr? then
          let m := meanQ (rr?.getD [])
          [("rr", if 18 < m then "Elevated breathing rate observed."
            else if m < 12 then "Slow, relaxed breathing pattern."
            else "Normal respiratory rate.")]
        else [])
    ++ (if hasEegData eeg? then
          [("eeg", "EEG patterns analyzed for stress markers.")] else [])
  { contributions := contributions, descriptions := descriptions }

/-! ## Shared shape lemmas -/

lemma fitTo_length (n : ℕ) (xs : List ℚ) : (fitTo n xs).length = n := by
  simp [fitTo]
  omega

lemma fitTo_of_length_eq {n : ℕ} {xs : List ℚ} (h : xs.length = n) :
    fitTo n xs = xs := by
  subst h
  simp [fitTo]

lemma cardiacBlock_length (o : StatOracle) (fourth : List ℚ → ℚ)
    (s? : Option (List ℚ)) : (cardiacBlock o fourth s?).length = 24 := by
  cases s? with
  | none => rfl
  | some v =>
    by_cases hv : v.isEmpty
    · simp [cardiacBlock, hv]
    · by_cases h1 : v.length > 1 <;> simp [cardiacBlock, hv, h1]

lemma cardiacBlock_zero (o : StatOracle) (fourth : List ℚ → ℚ)
    (s? : Option (List ℚ)) (h : s? = none ∨ s? = some []) :
    cardiacBlock o fourth s? = List.replicate 24 0 := by
  rcases h with h | h <;> subst h <;> rfl

lemma cardiacBlock_short_variability (o : StatOracle) (fourth : List ℚ → ℚ)
    (v : List ℚ) (h : v.length ≤ 1) :
    ((cardiacBlock o fourth (some v)).drop 8).take 4 = List.replicate 4 0 := by
  match v with
  | [] => rfl
  | [x] => simp [cardiacBlock]
  | x :: y :: t => simp at h

/-! ## C3 and C4: extractor shape contracts -/

/-- C3: for every oracle, channel mapping and sampling rate,
`extract_eeg_features` returns exactly 513 features and never raises (it is
a total function); it is the truncation/zero-padding to 513 of the
concatenated channel blocks, and an absent or empty channel contributes an
all-zero 37-feature block. -/
theorem C3_eeg_feature_shape (o : StatOracle)
    (eegData : List (String × List ℚ)) (fs : ℕ) :
    (extract_eeg_features o eegData fs).length = 513
    ∧ extract_eeg_features o eegData fs = fitTo 513 (rawEegFeatures o eegData fs)
    ∧ (∀ prevLen (s? : Option (List ℚ)), s? = none ∨ s? = some [] →
         channelBlock o fs prevLen s? = List.replicate 37 0) := by
  refine ⟨fitTo_length 513 _, rfl, ?_⟩
  intro prevLen s? h
  rcases h with h | h <;> subst h <;> rfl

/-- Closed instance of C3 at concrete inputs. -/
theorem C3_eeg_feature_shape_witness :
    channelBlock defaultOracle 128 0 none = List.replicate 37 0
    ∧ channelBlock defaultOracle 128 37 (some []) = List.replicate 37 0
    ∧ (extract_eeg_features defaultOracle [("AF3", [1, 2, 3])] 128).length = 513 :=
  ⟨(C3_eeg_feature_shape defaultOracle [("AF3", [1, 2, 3])] 128).2.2 0 none
     (Or.inl rfl),
   (C3_eeg_feature_shape defaultOracle [("AF3", [1, 2, 3])] 128).2.2 37 (some [])
     (Or.inr rfl),
   (C3_eeg_feature_shape defaultOracle [("AF3", [1, 2, 3])] 128).1⟩

/-- C4: for every oracle and every combination of absent/empty/short HRV, RR
and HR series, `extract_ecg_features` returns exactly 72 features as the
three 24-length blocks (HRV, RR, HR) in order; an absent or empty series
yields an all-zero block, and a series of length ≤ 1 yields zeros for its 4
first-difference variability features (positions 8..11 of its block).  The
function is total (never raises). -/
theorem C4_cardiac_feature_shape (o : StatOracle)
    (hrv? rr? hr? : Option (List ℚ)) :
    (extract_ecg_features o hrv? rr? hr?).length = 72
    ∧ extract_ecg_features o hrv? rr? hr?
        = cardiacBlock o pnn50Q hrv? ++ cardiacBlock o varQ rr?
          ++ cardiacBlock o varQ hr?
    ∧ (∀ fourth (s? : Option (List ℚ)), (cardiacBlock o fourth s?).length = 24)
    ∧ (∀ fourth (s? : Option (List ℚ)), s? = none ∨ s? = some [] →
         cardiacBlock o fourth s? = List.replicate 24 0)
    ∧ (∀ fourth (v : List ℚ), v.length ≤ 1 →
         ((cardiacBlock o fourth (some v)).drop 8).take 4
           = List.replicate 4 0) := by
  refine ⟨fitTo_length 72 _, ?_, fun fourth s? => cardiacBlock_length o fourth s?,
    fun fourth s? h => cardiacBlock_zero o fourth s? h,
    fun fourth v h => cardiacBlock_short_variability o fourth v h⟩
  exact fitTo_of_length_eq (by
    simp [List.length_append, cardiacBlock_length])

/-- Closed instance of C4 at concrete inputs. -/
theorem C4_cardiac_feature_shape_witness :
    (extract_ecg_features defaultOracle (some [55, 60, 52]) (some []) none).length = 72
    ∧ cardiacBlock defaultOracle varQ (some []) = List.replicate 24 0
    ∧ ((cardiacBlock defaultOracle varQ (some [70])).drop 8).take 4
        = List.replicate 4 0 :=
  ⟨(C4_cardiac_feature_shape defaultOracle (some [55, 60, 52]) (some []) none).1,
   (C4_cardiac_feature_shape defaultOracle (some [55, 60, 52]) (some []) none).2.2.2.1
     varQ (some []) (Or.inr rfl),
   (C4_cardiac_feature_shape defaultOracle (some [55, 60, 52]) (some []) none).2.2.2.2
     varQ [70] (by decide)⟩

/-! ## Dispatch analysis lemmas -/

lemma predict_unloaded (o : StatOracle) (st : ServiceState)
    (eeg? : Option (List (String × List ℚ))) (hrv? rr? hr? : Option (List ℚ))
    (metrics? : Option (List (String × ℚ))) (h : st.loaded = false) :
    predict_stress o st eeg? hrv? rr? hr? metrics?
      = errorResult "Models not loaded" := by
  simp [predict_stress, h]

lemma predict_loaded (o : StatOracle) (st : ServiceState)
    (eeg? : Option (List (String × List ℚ))) (hrv? rr? hr? : Option (List ℚ))
    (metrics? : Option (List (String × ℚ))) (h : st.loaded = true) :
    predict_stress o st eeg? hrv? rr? hr? metrics?
      = except2res (dispatchE o st eeg? hrv? rr? hr? metrics?) := by
  simp [predict_stress, h]

lemma runModel_ok {mp : ModelPath} {x s : List ℚ} {p : ℚ × ℚ}
    (mu : String) (ds : DataSources)
    (ht : mp.transform x = Except.ok s) (hc : mp.classify s = Except.ok p) :
    runModel mp x mu ds = Except.ok (modelRecord p mu ds) := by
  simp [runModel, ht, hc, Except.bind, Bind.bind, Pure.pure, Except.pure]

lemma runModel_cases (mp : ModelPath) (x : List ℚ) (mu : String)
    (ds : DataSources) :
    (∃ s p, mp.transform x = Except.ok s ∧ mp.classify s = Except.ok p
       ∧ runModel mp x mu ds = Except.ok (modelRecord p mu ds))
    ∨ (∃ e, runModel mp x mu ds = Except.error e) := by
  cases ht : mp.transform x with
  | error e =>
    right
    exact ⟨e, by simp [runModel, ht, Except.bind, Bind.bind]⟩
  | ok s =>
    cases hc : mp.classify s with
    | error e =>
      right
      exact ⟨e, by simp [runModel, ht, hc, Except.bind, Bind.bind]⟩
    | ok p =>
      exact Or.inl ⟨s, p, rfl, hc,
        by simp [runModel, ht, hc, Except.bind, Bind.bind, Pure.pure,
                 Except.pure]⟩

lemma dispatchE_fusion (o : StatOracle) (st : ServiceState)
    (eeg? : Option (List (String × List ℚ))) (hrv? rr? hr? : Option (List ℚ))
    (metrics? : Option (List (String × ℚ))) (mp : ModelPath)
    (hf : st.fusion = some mp) (h1 : hasEegData eeg? = true)
    (h2 : hasEcgData hrv? rr? = true) :
    dispatchE o st eeg? hrv? rr? hr? metrics?
      = predictFusion o mp (eeg?.getD []) hrv? rr? hr? := by
  have hs : st.fusion.isSome := by simp [hf]
  unfold dispatchE
  rw [dif_pos ⟨h1, h2, hs⟩]
  simp [hf]

lemma dispatchE_eeg (o : StatOracle) (st : ServiceState)
    (eeg? : Option (List (String × List ℚ))) (hrv? rr? hr? : Option (List ℚ))
    (metrics? : Option (List (String × ℚ))) (mp : ModelPath)
    (hn1 : ¬(hasEegData eeg? = true ∧ hasEcgData hrv? rr? = true
             ∧ st.fusion.isSome))
    (he : st.eeg = some mp) (h1 : hasEegData eeg? = true) :
    dispatchE o st eeg? hrv? rr? hr? metrics?
      = predictEegOnly o mp (eeg?.getD []) := by
  have hs : st.eeg.isSome := by simp [he]
  unfold dispatchE
  rw [dif_neg hn1, dif_pos ⟨h1, hs⟩]
  simp [he]

lemma dispatchE_ecg (o : StatOracle) (st : ServiceState)
    (eeg? : Option (List (String × List ℚ))) (hrv? rr? hr? : Option (List ℚ))
    (metrics? : Option (List (String × ℚ))) (mp : ModelPath)
    (hn1 : ¬(hasEegData eeg? = true ∧ hasEcgData hrv? rr? = true
             ∧ st.fusion.isSome))
    (hn2 : ¬(hasEegData eeg? = true ∧ st.eeg.isSome))
    (hc : st.ecg = some mp) (h2 : hasEcgData hrv? rr? = true) :
    dispatchE o st eeg? hrv? rr? hr? metrics?
      = predictEcgOnly o mp hrv? rr? hr? := by
  have hs : st.ecg.isSome := by simp [hc]
  unfold dispatchE
  rw [dif_neg hn1, dif_neg hn2, dif_pos ⟨h2, hs⟩]
  simp [hc]

lemma dispatchE_heuristic (o : StatOracle) (st : ServiceState)
    (eeg? : Option (List (String × List ℚ))) (hrv? rr? hr? : Option (List ℚ))
    (metrics? : Option (List (String × ℚ))) (m : List (String × ℚ))
    (hn1 : ¬(hasEegData eeg? = true ∧ hasEcgData hrv? rr? = true
             ∧ st.fusion.isSome))
    (hn2 : ¬(hasEegData eeg? = true ∧ st.eeg.isSome))
    (hn3 : ¬(hasEcgData hrv? rr? = true ∧ st.ecg.isSome))
    (hm : metrics? = some m) :
    dispatchE o st eeg? hrv? rr? hr? metrics?
      = Except.ok (predictEmotiv m) := by
  unfold dispatchE
  rw [dif_neg hn1, dif_neg hn2, dif_neg hn3, if_pos (by simp [hm])]
  simp [hm]

lemma dispatchE_nodata (o : StatOracle) (st : ServiceState)
    (eeg? : Option (List (String × List ℚ))) (hrv? rr? hr? : Option (List ℚ))
    (metrics? : Option (List (String × ℚ)))
    (hn1 : ¬(hasEegData eeg? = true ∧ hasEcgData hrv? rr? = true
             ∧ st.fusion.isSome))
    (hn2 : ¬(hasEegData eeg? = true ∧ st.eeg.isSome))
    (hn3 : ¬(hasEcgData hrv? rr? = true ∧ st.ecg.isSome))
    (hm : metrics? = none) :
    dispatchE o st eeg? hrv? rr? hr? metrics?
      = Except.ok (errorResult "No valid sensor data provided") := by
  unfold dispatchE
  rw [dif_neg hn1, dif_neg hn2, dif_neg hn3, if_neg (by simp [hm])]

/-- Characterization of a loaded-state prediction: it is the no-data error
result, a heuristic result, or the wrapped run of one of the loaded model
paths, and in each case the branch agrees with `chooseStrategy`. -/
lemma predict_loaded_shape (o : StatOracle) (st : ServiceState)
    (eeg? : Option (List (String × List ℚ))) (hrv? rr? hr? : Option (List ℚ))
    (metrics? : Option (List (String × ℚ))) (hld : st.loaded = true) :
    (predict_stress o st eeg? hrv? rr? hr? metrics?
        = errorResult "No valid sensor data provided"
      ∧ chooseStrategy st (hasEegData eeg?) (hasEcgData hrv? rr?)
          metrics?.isSome = Strategy.errorS)
    ∨ (∃ m, metrics? = some m
        ∧ predict_stress o st eeg? hrv? rr? hr? metrics? = predictEmotiv m
        ∧ chooseStrategy st (hasEegData eeg?) (hasEcgData hrv? rr?)
            metrics?.isSome = Strategy.heuristicS)
    ∨ (∃ mp x ds mu,
        (st.fusion = some mp ∨ st.eeg = some mp ∨ st.ecg = some mp)
        ∧ strategyLabel (chooseStrategy st (hasEegData eeg?)
            (hasEcgData hrv? rr?) metrics?.isSome) = some mu
        ∧ predict_stress o st eeg? hrv? rr? hr? metrics?
            = except2res (runModel mp x mu ds)) := by
  rw [predict_loaded o st eeg? hrv? rr? hr? metrics? hld]
  by_cases c1 : hasEegData eeg? = true ∧ hasEcgData hrv? rr? = true
                ∧ st.fusion.isSome
  · right; right
    obtain ⟨mp, hf⟩ := Option.isSome_iff_exists.mp c1.2.2
    refine ⟨mp,
      extract_eeg_features o (eeg?.getD []) ++ extract_ecg_features o hrv? rr? hr?,
      ⟨true, true, true, hr?.isSome⟩, "fusion", Or.inl hf, ?_, ?_⟩
    · rw [chooseStrategy, if_pos c1]
      rfl
    · rw [dispatchE_fusion o st eeg? hrv? rr? hr? metrics? mp hf c1.1 c1.2.1]
      rfl
  · by_cases c2 : hasEegData eeg? = true ∧ st.eeg.isSome
    · right; right
      obtain ⟨mp, he⟩ := Option.isSome_iff_exists.mp c2.2
      refine ⟨mp, extract_eeg_features o (eeg?.getD []),
        ⟨true, false, false, false⟩, "eeg_only", Or.inr (Or.inl he), ?_, ?_⟩
      · rw [chooseStrategy, if_neg c1, if_pos c2]
        rfl
      · rw [dispatchE_eeg o st eeg? hrv? rr? hr? metrics? mp c1 he c2.1]
        rfl
    · by_cases c3 : hasEcgData hrv? rr? = true ∧ st.ecg.isSome
      · right; right
        obtain ⟨mp, hc⟩ := Option.isSome_iff_exists.mp c3.2
        refine ⟨mp, extract_ecg_features o hrv? rr? hr?,
          ⟨false, nonemptyOpt hrv?, nonemptyOpt rr?, nonemptyOpt hr?⟩,
          "ecg_only", Or.inr (Or.inr hc), ?_, ?_⟩
        · rw [chooseStrategy, if_neg c1, if_neg c2, if_pos c3]
          rfl
        · rw [dispatchE_ecg o st eeg? hrv? rr? hr? metrics? mp c1 c2 hc c3.1]
          rfl
      · by_cases c4 : metrics?.isSome
        · right; left
          obtain ⟨m, hm⟩ := Option.isSome_iff_exists.mp c4
          refine ⟨m, hm, ?_, ?_⟩
          · rw [dispatchE_heuristic o st eeg? hrv? rr? hr? metrics? m c1 c2 c3 hm]
            rfl
          · rw [chooseStrategy, if_neg c1, if_neg c2, if_neg c3, if_pos c4]
        · left
          have hm : metrics? = none := Option.not_isSome_iff_eq_none.mp c4
          refine ⟨?_, ?_⟩
          · rw [dispatchE_nodata o st eeg? hrv? rr? hr? metrics? c1 c2 c3 hm]
            rfl
          · rw [chooseStrategy, if_neg c1, if_neg c2, if_neg c3, if_neg c4]

/-! ## Numeric lemmas for the rounding and truncation helpers -/

lemma ratFloor_eq (q : ℚ) : Rat.floor q = ⌊q⌋ :=
  (Rat.floor_def' q).trans Rat.floor_def.symm

lemma pytrunc_eq_floor {q : ℚ} (h : 0 ≤ q) : pytrunc q = ⌊q⌋ := by
  rw [pytrunc, if_pos h, ratFloor_eq]

lemma pytrunc_bounds {q : ℚ} (h0 : 0 ≤ q) (h1 : q ≤ 100) :
    0 ≤ pytrunc q ∧ pytrunc q ≤ 100 := by
  rw [pytrunc_eq_floor h0]
  refine ⟨Int.le_floor.mpr (by exact_mod_cast h0), ?_⟩
  have h2 : ((⌊q⌋ : ℚ)) ≤ q := Int.floor_le q
  have h3 : ((⌊q⌋ : ℚ)) ≤ 100 := le_trans h2 h1
  exact_mod_cast h3

lemma rne_close (q : ℚ) : |(rne q : ℚ) - q| ≤ 1/2 := by
  rw [rne, ratFloor_eq]
  by_cases h : q - (⌊q⌋ : ℚ) = 1/2
  · rw [if_pos h]
    have he : ((⌊q⌋ : ℚ)) = q - 1/2 := by linarith
    by_cases h2 : ⌊q⌋ % 2 = 0
    · rw [if_pos h2, he, abs_le]
      constructor <;> linarith
    · rw [if_neg h2]
      push_cast
      rw [he, abs_le]
      constructor <;> linarith
  · rw [if_neg h, ratFloor_eq]
    have h1 := Int.floor_le (q + 1/2)
    have h2 := Int.lt_floor_add_one (q + 1/2)
    rw [abs_le]
    constructor <;> linarith

lemma rne_range {q : ℚ} {B : ℤ} (h0 : 0 ≤ q) (h1 : q ≤ (B : ℚ)) :
    0 ≤ rne q ∧ rne q ≤ B := by
  have hc := rne_close q
  rw [abs_le] at hc
  constructor
  · by_contra hng
    push_neg at hng
    have h2 : rne q ≤ -1 := by omega
    have h3 : ((rne q : ℚ)) ≤ -1 := by exact_mod_cast h2
    linarith
  · by_contra hng
    push_neg at hng
    have h2 : B + 1 ≤ rne q := by omega
    have h3 : ((B : ℚ)) + 1 ≤ ((rne q : ℚ)) := by exact_mod_cast h2
    linarith

lemma round1_bounds {q : ℚ} (h0 : 0 ≤ q) (h1 : q ≤ 100) :
    0 ≤ round1 q ∧ round1 q ≤ 100 := by
  have h := rne_range (q := q * 10) (B := 1000) (by linarith)
    (by push_cast; linarith)
  rw [round1]
  constructor
  · have h2 : (0 : ℚ) ≤ ((rne (q * 10) : ℚ)) := by exact_mod_cast h.1
    exact div_nonneg h2 (by norm_num)
  · rw [div_le_iff₀ (by norm_num : (0:ℚ) < 10)]
    have h2 : ((rne (q * 10) : ℚ)) ≤ 1000 := by exact_mod_cast h.2
    linarith

lemma round1_close (q : ℚ) : |round1 q - q| ≤ 1/20 := by
  have h := rne_close (q * 10)
  have e : round1 q - q = ((rne (q * 10) : ℚ) - q * 10) / 10 := by
    rw [round1]; ring
  rw [e, abs_div, abs_of_pos (show (0:ℚ) < 10 by norm_num),
      div_le_iff₀ (show (0:ℚ) < 10 by norm_num)]
  linarith

lemma lookup_mem {α β : Type} [BEq α] [LawfulBEq α] {l : List (α × β)}
    {k : α} {v : β} (h : l.lookup k = some v) : (k, v) ∈ l := by
  induction l with
  | nil => simp [List.lookup] at h
  | cons a t ih =>
    by_cases hk : (k == a.1)
    · have hke : k = a.1 := eq_of_beq hk
      rw [List.lookup, hk] at h
      simp at h
      subst hke h
      exact List.mem_cons.mpr (Or.inl (by cases a; rfl))
    · rw [List.lookup] at h
      rw [Bool.of_not_eq_true hk] at h
      exact List.mem_cons.mpr (Or.inr (ih h))

lemma getMetric_bounds {m : List (String × ℚ)} {k : String} {d : ℚ}
    (hd : 0 ≤ d ∧ d ≤ 1) (hm : ∀ kv ∈ m, 0 ≤ kv.2 ∧ kv.2 ≤ 1) :
    0 ≤ getMetric m k d ∧ getMetric m k d ≤ 1 := by
  rw [getMetric]
  cases hl : m.lookup k with
  | none => exact hd
  | some v => exact hm (k, v) (lookup_mem hl)

/-! ## Concrete fixtures for witnesses and counterexamples -/

/-- A model path that succeeds everywhere with the uniform distribution. -/
def okPath : ModelPath :=
  { transform := fun v => Except.ok v,
    classify := fun _ => Except.ok (1/2, 1/2) }

/-- A reachable loaded state (fusion model present) with no fallback models,
as produced by `load_models` when only the fusion pair is on disk. -/
def loadedStateFusionOnly : ServiceState :=
  { fusion := some okPath, eeg := none, ecg := none, loaded := true }

/-! ## C6: the heuristic (EMOTIV metrics) strategy -/

/-- C6 counterexample: with metrics `stress = 0.5`, `relaxation = 0.49` the
unrounded value is `50.3`, so the returned `stress_level` is the integer
`50`; the claim ("stress" iff `stress_level > 50`) then demands class
"normal", but the code compares the pre-truncation float and returns
"stress". -/
theorem C6_cx_class_threshold :
    (predict_stress defaultOracle loadedStateFusionOnly none none none none
        (some [("stress", 1/2), ("relaxation", 49/100)])).stress_level = some 50
    ∧ (predict_stress defaultOracle loadedStateFusionOnly none none none none
        (some [("stress", 1/2), ("relaxation", 49/100)])).stress_class
        = some "stress"
    ∧ ¬((50 : ℤ) > 50) := by
  have he : predict_stress defaultOracle loadedStateFusionOnly none none none
      none (some [("stress", 1/2), ("relaxation", 49/100)])
      = predictEmotiv [("stress", 1/2), ("relaxation", 49/100)] := by
    rw [predict_loaded defaultOracle loadedStateFusionOnly none none none none
          (some [("stress", 1/2), ("relaxation", 49/100)]) rfl,
        dispatchE_heuristic defaultOracle loadedStateFusionOnly none none none
          none (some [("stress", 1/2), ("relaxation", 49/100)])
          [("stress", 1/2), ("relaxation", 49/100)]
          (by simp [hasEegData]) (by simp [hasEegData])
          (by simp [hasEcgData, nonemptyOpt]) rfl]
    rfl
  refine ⟨?_, ?_, by norm_num⟩
  · rw [he]
    simp [predictEmotiv, getMetric, List.lookup]
    norm_num [pytrunc, ratFloor_eq]
  · rw [he]
    simp [predictEmotiv, getMetric, List.lookup]
    norm_num

/-- C6 (amended): the heuristic strategy returns
`stress_level = int(v)` for `v = (stress*0.7 + (1-relaxation)*0.3)*100`
(metrics defaulting to 0.5), `stress_class = "stress"` iff `v > 50`
(compared before integer truncation), fixed confidence 70, `data_sources`
all false. -/
theorem C6_heuristic_result (o : StatOracle) (st : ServiceState)
    (m : List (String × ℚ)) (hld : st.loaded = true) :
    predict_stress o st none none none none (some m) = predictEmotiv m
    ∧ predictEmotiv m
        = { stress_level := some (pytrunc ((getMetric m "stress" (1/2) * (7/10)
              + (1 - getMetric m "relaxation" (1/2)) * (3/10)) * 100)),
            stress_class := some
              (if 50 < (getMetric m "stress" (1/2) * (7/10)
                  + (1 - getMetric m "relaxation" (1/2)) * (3/10)) * 100
               then "stress" else "normal"),
            confidence := some 70,
            model_used := some "emotiv_metrics",
            prediction_raw := none,
            data_sources := some ⟨false, false, false, false⟩,
            emotiv_echo := some m,
            error := none } := by
  constructor
  · rw [predict_loaded o st none none none none (some m) hld,
        dispatchE_heuristic o st none none none none (some m) m
          (by simp [hasEegData]) (by simp [hasEegData])
          (by simp [hasEcgData, nonemptyOpt]) rfl]
    rfl
  · rfl

/-- Closed instance of C6: the spec scenario
`{stress: 0.9, relaxation: 0.1}` gives `stress_level = 90`,
`stress_class = "stress"`, `confidence = 70`. -/
theorem C6_heuristic_result_witness :
    predict_stress defaultOracle loadedStateFusionOnly none none none none
        (some [("stress", 9/10), ("relaxation", 1/10)])
      = predictEmotiv [("stress", 9/10), ("relaxation", 1/10)]
    ∧ (predictEmotiv [("stress", 9/10), ("relaxation", 1/10)]).stress_level
        = some 90
    ∧ (predictEmotiv [("stress", 9/10), ("relaxation", 1/10)]).stress_class
        = some "stress"
    ∧ (predictEmotiv [("stress", 9/10), ("relaxation", 1/10)]).confidence
        = some 70 :=
  ⟨(C6_heuristic_result defaultOracle loadedStateFusionOnly
      [("stress", 9/10), ("relaxation", 1/10)] rfl).1,
   by
     simp [predictEmotiv, getMetric, List.lookup]
     norm_num [pytrunc, ratFloor_eq],
   by
     simp [predictEmotiv, getMetric, List.lookup]
     norm_num,
   by simp [predictEmotiv]⟩

/-! ## C5: output bounds -/

/-- The precondition of C5 for one model path: classifier outputs are
probabilities in [0,1]. -/
def ProbSoundPath (mp : ModelPath) : Prop :=
  ∀ v p, mp.classify v = Except.ok p →
    0 ≤ p.1 ∧ p.1 ≤ 1 ∧ 0 ≤ p.2 ∧ p.2 ≤ 1

/-- All loaded paths of a state output probabilities in [0,1]. -/
def ProbSoundState (st : ServiceState) : Prop :=
  (∀ mp, st.fusion = some mp → ProbSoundPath mp)
  ∧ (∀ mp, st.eeg = some mp → ProbSoundPath mp)
  ∧ (∀ mp, st.ecg = some mp → ProbSoundPath mp)

/-- The heuristic-metrics values supplied lie in [0,1]. -/
def MetricsSound (m? : Option (List (String × ℚ))) : Prop :=
  ∀ m, m? = some m → ∀ kv ∈ m, 0 ≤ kv.2 ∧ kv.2 ≤ 1

lemma modelRecord_bounds {p : ℚ × ℚ} (h1 : 0 ≤ p.1) (h2 : p.1 ≤ 1)
    (h3 : 0 ≤ p.2) (h4 : p.2 ≤ 1) (mu : String) (ds : DataSources) :
    ∃ (sl : ℤ) (conf : ℚ),
      (modelRecord p mu ds).stress_level = some sl ∧ 0 ≤ sl ∧ sl ≤ 100
      ∧ (modelRecord p mu ds).confidence = some conf
      ∧ 0 ≤ conf ∧ conf ≤ 100 := by
  have hsl := pytrunc_bounds (q := p.2 * 100) (by linarith) (by linarith)
  have hm0 : 0 ≤ (if p.1 < p.2 then p.2 else p.1) := by split <;> linarith
  have hm1 : (if p.1 < p.2 then p.2 else p.1) ≤ 1 := by split <;> linarith
  have hcf := round1_bounds (q := (if p.1 < p.2 then p.2 else p.1) * 100)
    (by linarith) (by linarith)
  exact ⟨pytrunc (p.2 * 100), round1 ((if p.1 < p.2 then p.2 else p.1) * 100),
    rfl, hsl.1, hsl.2, rfl, hcf.1, hcf.2⟩

lemma predictEmotiv_bounds {m : List (String × ℚ)}
    (hm : ∀ kv ∈ m, 0 ≤ kv.2 ∧ kv.2 ≤ 1) :
    ∃ (sl : ℤ) (conf : ℚ),
      (predictEmotiv m).stress_level = some sl ∧ 0 ≤ sl ∧ sl ≤ 100
      ∧ (predictEmotiv m).confidence = some conf
      ∧ 0 ≤ conf ∧ conf ≤ 100 := by
  have hs := getMetric_bounds (m := m) (k := "stress") (d := 1/2)
    (by norm_num) hm
  have hr := getMetric_bounds (m := m) (k := "relaxation") (d := 1/2)
    (by norm_num) hm
  have hv0 : 0 ≤ (getMetric m "stress" (1/2) * (7/10)
      + (1 - getMetric m "relaxation" (1/2)) * (3/10)) * 100 := by
    nlinarith [hs.1, hs.2, hr.1, hr.2]
  have hv1 : (getMetric m "stress" (1/2) * (7/10)
      + (1 - getMetric m "relaxation" (1/2)) * (3/10)) * 100 ≤ 100 := by
    nlinarith [hs.1, hs.2, hr.1, hr.2]
  have hb := pytrunc_bounds hv0 hv1
  exact ⟨pytrunc ((getMetric m "stress" (1/2) * (7/10)
      + (1 - getMetric m "relaxation" (1/2)) * (3/10)) * 100), 70,
    rfl, hb.1, hb.2, rfl, by norm_num, by norm_num⟩

/-- C5: under the precondition that classifier outputs are probabilities in
[0,1] and heuristic metric values lie in [0,1], every successful (non-error)
`predict_stress` result has an integer `stress_level` in [0,100] and a
`confidence` in [0,100]. -/
theorem C5_output_bounds (o : StatOracle) (st : ServiceState)
    (eeg? : Option (List (String × List ℚ))) (hrv? rr? hr? : Option (List ℚ))
    (metrics? : Option (List (String × ℚ)))
    (hp : ProbSoundState st) (hm : MetricsSound metrics?)
    (hok : (predict_stress o st eeg? hrv? rr? hr? metrics?).error = none) :
    ∃ (sl : ℤ) (conf : ℚ),
      (predict_stress o st eeg? hrv? rr? hr? metrics?).stress_level = some sl
      ∧ 0 ≤ sl ∧ sl ≤ 100
      ∧ (predict_stress o st eeg? hrv? rr? hr? metrics?).confidence = some conf
      ∧ 0 ≤ conf ∧ conf ≤ 100 := by
  by_cases hld : st.loaded = true
  · rcases predict_loaded_shape o st eeg? hrv? rr? hr? metrics? hld with
      ⟨he, _⟩ | ⟨m, hmm, he, _⟩ | ⟨mp, x, ds, mu, hmem, _, he⟩
    · rw [he] at hok
      simp [errorResult] at hok
    · rw [he]
      exact predictEmotiv_bounds (hm m hmm)
    · rw [he] at hok ⊢
      rcases runModel_cases mp x mu ds with ⟨s, p, ht, hc, hr⟩ | ⟨e, hr⟩
      · rw [hr] at hok ⊢
        have hsound : ProbSoundPath mp := by
          rcases hmem with h | h | h
          exacts [hp.1 mp h, hp.2.1 mp h, hp.2.2 mp h]
        obtain ⟨b1, b2, b3, b4⟩ := hsound s p hc
        exact modelRecord_bounds b1 b2 b3 b4 mu ds
      · rw [hr] at hok
        simp [except2res, errorResult] at hok
  · have hl0 : st.loaded = false := by
      revert hld
      cases st.loaded <;> simp
    rw [predict_unloaded o st eeg? hrv? rr? hr? metrics? hl0] at hok
    simp [errorResult] at hok

/-- Closed instance of C5 at a concrete heuristic request. -/
theorem C5_output_bounds_witness :
    ∃ (sl : ℤ) (conf : ℚ),
      (predict_stress defaultOracle loadedStateFusionOnly none none none none
          (some [("stress", 3/4)])).stress_level = some sl
      ∧ 0 ≤ sl ∧ sl ≤ 100
      ∧ (predict_stress defaultOracle loadedStateFusionOnly none none none none
          (some [("stress", 3/4)])).confidence = some conf
      ∧ 0 ≤ conf ∧ conf ≤ 100 :=
  C5_output_bounds defaultOracle loadedStateFusionOnly none none none none
    (some [("stress", 3/4)])
    (by
      refine ⟨?_, ?_, ?_⟩ <;> intro mp h <;>
        simp only [loadedStateFusionOnly] at h
      · cases h
        intro v p hcl
        cases hcl
        norm_num [okPath]
      · cases h
      · cases h)
    (by
      intro m h kv hkv
      cases h
      simp at hkv
      rw [hkv]
      norm_num)
    (by
      rw [predict_loaded defaultOracle loadedStateFusionOnly none none none
            none (some [("stress", 3/4)]) rfl,
          dispatchE_heuristic defaultOracle loadedStateFusionOnly none none
            none none (some [("stress", 3/4)]) [("stress", 3/4)]
            (by simp [hasEegData]) (by simp [hasEegData])
            (by simp [hasEcgData, nonemptyOpt]) rfl]
      rfl)

/-! ## C7: stress level vs confidence on the model paths -/

/-- A classifier fixture returning probabilities (0.345, 0.655). -/
def pathP655 : ModelPath :=
  { transform := fun v => Except.ok v,
    classify := fun _ => Except.ok (69/200, 131/200) }

/-- A reachable state with the fusion and ECG models loaded. -/
def stateWithEcg : ServiceState :=
  { fusion := some okPath, eeg := none, ecg := some pathP655, loaded := true }

/-- C7 counterexample: with classifier probabilities (0.345, 0.655) the
published `stress_level` is the truncated integer 65, which does not equal
the stress-class probability × 100 = 65.5; so "stress_level equals the
probability of the stress class times 100" fails as a literal equality. -/
theorem C7_cx_stress_level_truncated :
    (predict_stress defaultOracle stateWithEcg none (some [1, 2]) none none
        none).stress_level = some 65
    ∧ (predict_stress defaultOracle stateWithEcg none (some [1, 2]) none none
        none).prediction_raw = some [69/200, 131/200]
    ∧ ¬((65 : ℚ) = (131/200) * 100) := by
  have he : predict_stress defaultOracle stateWithEcg none (some [1, 2]) none
      none none
      = except2res (runModel pathP655
          (extract_ecg_features defaultOracle (some [1, 2]) none none)
          "ecg_only"
          ⟨false, nonemptyOpt (some [1, 2]), nonemptyOpt none,
           nonemptyOpt none⟩) := by
    rw [predict_loaded defaultOracle stateWithEcg none (some [1, 2]) none none
          none rfl,
        dispatchE_ecg defaultOracle stateWithEcg none (some [1, 2]) none none
          none pathP655 (by simp [hasEegData]) (by simp [hasEegData]) rfl
          (by simp [hasEcgData, nonemptyOpt])]
    rfl
  rw [he, runModel_ok "ecg_only"
        ⟨false, nonemptyOpt (some [1, 2]), nonemptyOpt none, nonemptyOpt none⟩
        rfl rfl]
  refine ⟨?_, rfl, by norm_num⟩
  show some (pytrunc ((131 : ℚ)/200 * 100)) = some 65
  norm_num [pytrunc, ratFloor_eq]

/-- C7 (amended): on each model path, a successful scale-and-classify with
probability row `p = (p_normal, p_stress)` yields exactly
`stress_level = int(p_stress*100)` (truncated) and
`confidence = round(p_argmax*100, 1)`; the two use independent
probabilities, so with argmax class "normal" the stress level still reads
the losing stress-class probability. -/
theorem C7_model_probabilities (o : StatOracle) (st : ServiceState)
    (eeg? : Option (List (String × List ℚ))) (hrv? rr? hr? : Option (List ℚ))
    (metrics? : Option (List (String × ℚ))) (hld : st.loaded = true) :
    (∀ mp s p, st.fusion = some mp →
       hasEegData eeg? = true → hasEcgData hrv? rr? = true →
       mp.transform (extract_eeg_features o (eeg?.getD [])
         ++ extract_ecg_features o hrv? rr? hr?) = Except.ok s →
       mp.classify s = Except.ok p →
       predict_stress o st eeg? hrv? rr? hr? metrics?
         = modelRecord p "fusion" ⟨true, true, true, hr?.isSome⟩)
    ∧ (∀ mp s p, st.eeg = some mp →
       ¬(hasEegData eeg? = true ∧ hasEcgData hrv? rr? = true
         ∧ st.fusion.isSome) →
       hasEegData eeg? = true →
       mp.transform (extract_eeg_features o (eeg?.getD [])) = Except.ok s →
       mp.classify s = Except.ok p →
       predict_stress o st eeg? hrv? rr? hr? metrics?
         = modelRecord p "eeg_only" ⟨true, false, false, false⟩)
    ∧ (∀ mp s p, st.ecg = some mp →
       ¬(hasEegData eeg? = true ∧ hasEcgData hrv? rr? = true
         ∧ st.fusion.isSome) →
       ¬(hasEegData eeg? = true ∧ st.eeg.isSome) →
       hasEcgData hrv? rr? = true →
       mp.transform (extract_ecg_features o hrv? rr? hr?) = Except.ok s →
       mp.classify s = Except.ok p →
       predict_stress o st eeg? hrv? rr? hr? metrics?
         = modelRecord p "ecg_only"
             ⟨false, nonemptyOpt hrv?, nonemptyOpt rr?, nonemptyOpt hr?⟩)
    ∧ (∀ (p : ℚ × ℚ) (mu : String) (ds : DataSources),
        (modelRecord p mu ds).stress_level = some (pytrunc (p.2 * 100))
        ∧ (modelRecord p mu ds).stress_class
            = some (if p.1 < p.2 then "stress" else "normal")
        ∧ (modelRecord p mu ds).confidence
            = some (round1 ((if p.1 < p.2 then p.2 else p.1) * 100))) := by
  refine ⟨?_, ?_, ?_, fun p mu ds => ⟨rfl, rfl, rfl⟩⟩
  · intro mp s p hf h1 h2 ht hc
    rw [predict_loaded o st eeg? hrv? rr? hr? metrics? hld,
        dispatchE_fusion o st eeg? hrv? rr? hr? metrics? mp hf h1 h2]
    show except2res (runModel mp _ "fusion" _) = _
    rw [runModel_ok "fusion" ⟨true, true, true, hr?.isSome⟩ ht hc]
    rfl
  · intro mp s p he hn1 h1 ht hc
    rw [predict_loaded o st eeg? hrv? rr? hr? metrics? hld,
        dispatchE_eeg o st eeg? hrv? rr? hr? metrics? mp hn1 he h1]
    show except2res (runModel mp _ "eeg_only" _) = _
    rw [runModel_ok "eeg_only" ⟨true, false, false, false⟩ ht hc]
    rfl
  · intro mp s p hc2 hn1 hn2 h2 ht hc
    rw [predict_loaded o st eeg? hrv? rr? hr? metrics? hld,
        dispatchE_ecg o st eeg? hrv? rr? hr? metrics? mp hn1 hn2 hc2 h2]
    show except2res (runModel mp _ "ecg_only" _) = _
    rw [runModel_ok "ecg_only"
          ⟨false, nonemptyOpt hrv?, nonemptyOpt rr?, nonemptyOpt hr?⟩ ht hc]
    rfl

/-- Closed instance of C7 (amended): the ECG-only path at probabilities
(0.345, 0.655) publishes the truncated stress level 65 with class
"stress". -/
theorem C7_model_probabilities_witness :
    predict_stress defaultOracle stateWithEcg none (some [1, 2]) none none none
      = modelRecord ((69 : ℚ)/200, (131 : ℚ)/200) "ecg_only"
          ⟨false, true, false, false⟩
    ∧ (modelRecord ((69 : ℚ)/200, (131 : ℚ)/200) "ecg_only"
          ⟨false, true, false, false⟩).stress_level = some 65 :=
  ⟨(C7_model_probabilities defaultOracle stateWithEcg none (some [1, 2]) none
      none none rfl).2.2.1 pathP655
      (extract_ecg_features defaultOracle (some [1, 2]) none none)
      ((69 : ℚ)/200, (131 : ℚ)/200) rfl (by simp [hasEegData])
      (by simp [hasEegData]) (by simp [hasEcgData, nonemptyOpt]) rfl rfl,
   by norm_num [modelRecord, pytrunc, ratFloor_eq]⟩

/-! ## C8: the `model_used` labels -/

lemma strategyLabel_mem {s : Strategy} {mu : String}
    (h : strategyLabel s = some mu) :
    mu ∈ ["fusion", "eeg_only", "ecg_only", "emotiv_metrics"] := by
  cases s <;> simp_all [strategyLabel]

/-- C8 counterexample: the heuristic strategy labels its result
`"emotiv_metrics"`, which is not in the claimed enum
{fusion, eeg_only, ecg_only, heuristic}. -/
theorem C8_cx_heuristic_label :
    (predict_stress defaultOracle loadedStateFusionOnly none none none none
        (some [])).error = none
    ∧ (predict_stress defaultOracle loadedStateFusionOnly none none none none
        (some [])).model_used = some "emotiv_metrics"
    ∧ ¬("emotiv_metrics" ∈ ["fusion", "eeg_only", "ecg_only", "heuristic"]) := by
  have he : predict_stress defaultOracle loadedStateFusionOnly none none none
      none (some []) = predictEmotiv [] := by
    rw [predict_loaded defaultOracle loadedStateFusionOnly none none none none
          (some []) rfl,
        dispatchE_heuristic defaultOracle loadedStateFusionOnly none none none
          none (some []) [] (by simp [hasEegData]) (by simp [hasEegData])
          (by simp [hasEcgData, nonemptyOpt]) rfl]
    rfl
  exact ⟨by rw [he]; rfl, by rw [he]; rfl, by decide⟩

/-- C8 (amended): every successful result's `model_used` is the label of the
strategy branch that actually executed, and is one of
{fusion, eeg_only, ecg_only, emotiv_metrics} (the heuristic path is
labelled "emotiv_metrics", not "heuristic"). -/
theorem C8_model_used_labels (o : StatOracle) (st : ServiceState)
    (eeg? : Option (List (String × List ℚ))) (hrv? rr? hr? : Option (List ℚ))
    (metrics? : Option (List (String × ℚ)))
    (hok : (predict_stress o st eeg? hrv? rr? hr? metrics?).error = none) :
    (predict_stress o st eeg? hrv? rr? hr? metrics?).model_used
      = strategyLabel (chooseStrategy st (hasEegData eeg?)
          (hasEcgData hrv? rr?) metrics?.isSome)
    ∧ ∃ mu, (predict_stress o st eeg? hrv? rr? hr? metrics?).model_used
          = some mu
        ∧ mu ∈ ["fusion", "eeg_only", "ecg_only", "emotiv_metrics"] := by
  by_cases hld : st.loaded = true
  · rcases predict_loaded_shape o st eeg? hrv? rr? hr? metrics? hld with
      ⟨he, _⟩ | ⟨m, _, he, hcs⟩ | ⟨mp, x, ds, mu, _, hlab, he⟩
    · rw [he] at hok
      simp [errorResult] at hok
    · rw [he, hcs]
      exact ⟨rfl, "emotiv_metrics", rfl, by decide⟩
    · rw [he] at hok ⊢
      rcases runModel_cases mp x mu ds with ⟨s, p, _, _, hr⟩ | ⟨e, hr⟩
      · rw [hr] at hok ⊢
        exact ⟨hlab.symm, mu, rfl, strategyLabel_mem hlab⟩
      · rw [hr] at hok
        simp [except2res, errorResult] at hok
  · have hl0 : st.loaded = false := by
      revert hld
      cases st.loaded <;> simp
    rw [predict_unloaded o st eeg? hrv? rr? hr? metrics? hl0] at hok
    simp [errorResult] at hok

/-- Closed instance of C8 (amended) on a heuristic request. -/
theorem C8_model_used_labels_witness :
    (predict_stress defaultOracle loadedStateFusionOnly none none none none
        (some [("stress", 3/4)])).model_used
      = strategyLabel (chooseStrategy loadedStateFusionOnly (hasEegData none)
          (hasEcgData none none) true)
    ∧ ∃ mu, (predict_stress defaultOracle loadedStateFusionOnly none none none
          none (some [("stress", 3/4)])).model_used = some mu
        ∧ mu ∈ ["fusion", "eeg_only", "ecg_only", "emotiv_metrics"] :=
  C8_model_used_labels defaultOracle loadedStateFusionOnly none none none none
    (some [("stress", 3/4)])
    (by
      rw [predict_loaded defaultOracle loadedStateFusionOnly none none none
            none (some [("stress", 3/4)]) rfl,
          dispatchE_heuristic defaultOracle loadedStateFusionOnly none none
            none none (some [("stress", 3/4)]) [("stress", 3/4)]
            (by simp [hasEegData]) (by simp [hasEegData])
            (by simp [hasEcgData, nonemptyOpt]) rfl]
      rfl)

/-! ## C9: exception conversion and the error-result shape -/

/-- A classifier fixture whose classification stage raises. -/
def failingPath : ModelPath :=
  { transform := fun v => Except.ok v,
    classify := fun _ => Except.error "boom" }

/-- A reachable loaded state whose only model raises at classify time. -/
def stateFailing : ServiceState :=
  { fusion := some failingPath, eeg := none, ecg := none, loaded := true }

/-- C9: (1) any raise inside the dispatch (scaling or classification) is
caught and becomes the error-result dict carrying the message; (2) every
result is either an error-result dict or a success dict with `error`
absent and `stress_level`/`confidence` present (no exception propagates —
the embedding is a total function); (3) with no usable data and no
heuristic metrics the same error-result shape (with `stress_level = None`)
is returned rather than a thrown fault. -/
theorem C9_exception_conversion (o : StatOracle) (st : ServiceState)
    (eeg? : Option (List (String × List ℚ))) (hrv? rr? hr? : Option (List ℚ))
    (metrics? : Option (List (String × ℚ))) :
    (∀ e, st.loaded = true →
       dispatchE o st eeg? hrv? rr? hr? metrics? = Except.error e →
       predict_stress o st eeg? hrv? rr? hr? metrics? = errorResult e)
    ∧ ((∃ m, predict_stress o st eeg? hrv? rr? hr? metrics? = errorResult m)
       ∨ ((predict_stress o st eeg? hrv? rr? hr? metrics?).error = none
          ∧ (predict_stress o st eeg? hrv? rr? hr? metrics?).stress_level.isSome
          ∧ (predict_stress o st eeg? hrv? rr? hr? metrics?).confidence.isSome))
    ∧ (st.loaded = true → hasEegData eeg? = false →
       hasEcgData hrv? rr? = false → metrics? = none →
       predict_stress o st eeg? hrv? rr? hr? metrics?
         = errorResult "No valid sensor data provided") := by
  refine ⟨?_, ?_, ?_⟩
  · intro e hld hde
    rw [predict_loaded o st eeg? hrv? rr? hr? metrics? hld, hde]
    rfl
  · by_cases hld : st.loaded = true
    · rcases predict_loaded_shape o st eeg? hrv? rr? hr? metrics? hld with
        ⟨he, _⟩ | ⟨m, _, he, _⟩ | ⟨mp, x, ds, mu, _, _, he⟩
      · exact Or.inl ⟨"No valid sensor data provided", he⟩
      · right
        rw [he]
        exact ⟨rfl, rfl, rfl⟩
      · rw [he]
        rcases runModel_cases mp x mu ds with ⟨s, p, _, _, hr⟩ | ⟨e, hr⟩
        · right
          rw [hr]
          exact ⟨rfl, rfl, rfl⟩
        · exact Or.inl ⟨e, by rw [hr]; rfl⟩
    · have hl0 : st.loaded = false := by
        revert hld
        cases st.loaded <;> simp
      exact Or.inl ⟨"Models not loaded",
        predict_unloaded o st eeg? hrv? rr? hr? metrics? hl0⟩
  · intro hld h1 h2 hm
    rw [predict_loaded o st eeg? hrv? rr? hr? metrics? hld,
        dispatchE_nodata o st eeg? hrv? rr? hr? metrics? (by simp [h1])
          (by simp [h1]) (by simp [h2]) hm]
    rfl

/-- Closed instance of C9: the spec scenario (all-empty series, no EEG, no
metrics) yields the no-data error result, and a classifier raise with
message "boom" yields the error result carrying "boom". -/
theorem C9_exception_conversion_witness :
    predict_stress defaultOracle loadedStateFusionOnly none (some []) (some [])
        (some []) none = errorResult "No valid sensor data provided"
    ∧ predict_stress defaultOracle stateFailing (some [("AF3", [1])])
        (some [1, 2]) none none none = errorResult "boom" :=
  ⟨(C9_exception_conversion defaultOracle loadedStateFusionOnly none (some [])
      (some []) (some []) none).2.2 rfl rfl rfl rfl,
   (C9_exception_conversion defaultOracle stateFailing (some [("AF3", [1])])
      (some [1, 2]) none none none).1 "boom" rfl
     (by
       rw [dispatchE_fusion defaultOracle stateFailing (some [("AF3", [1])])
             (some [1, 2]) none none none failingPath rfl rfl rfl]
       simp [predictFusion, runModel, failingPath, Except.bind, Bind.bind])⟩

/-! ## C1: strategy selection priority -/

lemma chooseStrategy_eq_spec (st : ServiceState) (a b c : Bool) :
    chooseStrategy st a b c
      = selectStrategySpec a b st.fusion.isSome st.eeg.isSome st.ecg.isSome
          c := by
  obtain ⟨f, e, g, l⟩ := st
  cases f <;> cases e <;> cases g <;> cases a <;> cases b <;> cases c <;> rfl

/-- With the service loaded and no model raising, the observable strategy of
every prediction is the branch `chooseStrategy` picks. -/
lemma predict_observed (o : StatOracle) (st : ServiceState)
    (eeg? : Option (List (String × List ℚ))) (hrv? rr? hr? : Option (List ℚ))
    (metrics? : Option (List (String × ℚ))) (hld : st.loaded = true)
    (hn : NoRaiseState st) :
    observedStrategy (predict_stress o st eeg? hrv? rr? hr? metrics?)
      = chooseStrategy st (hasEegData eeg?) (hasEcgData hrv? rr?)
          metrics?.isSome := by
  rcases predict_loaded_shape o st eeg? hrv? rr? hr? metrics? hld with
    ⟨he, hcs⟩ | ⟨m, _, he, hcs⟩ | ⟨mp, x, ds, mu, hmem, hlab, he⟩
  · rw [he, hcs]
    rfl
  · rw [he, hcs]
    rfl
  · have hnr : NoRaisePath mp := by
      rcases hmem with h | h | h
      exacts [hn.1 mp h, hn.2.1 mp h, hn.2.2 mp h]
    obtain ⟨s, hts⟩ := hnr.1 x
    obtain ⟨p, hps⟩ := hnr.2 s
    rw [he, runModel_ok mu ds hts hps]
    cases hcs : chooseStrategy st (hasEegData eeg?) (hasEcgData hrv? rr?)
        metrics?.isSome <;> rw [hcs] at hlab <;>
      simp only [strategyLabel] at hlab
    · injection hlab with h2
      subst h2
      rfl
    · injection hlab with h2
      subst h2
      rfl
    · injection hlab with h2
      subst h2
      rfl
    · injection hlab with h2
      subst h2
      rfl
    · cases hlab

/-- C1 counterexample: with the EEG model loaded but the fusion model absent,
`load_models` leaves the service not-loaded, and a request with usable EEG
data gets the "Models not loaded" error result instead of the claimed
`eeg_only` strategy. -/
theorem C1_cx_unloaded_gate :
    (load_models ⟨⟨false, Except.error "unused"⟩, ⟨true, Except.ok okPath⟩,
        ⟨false, Except.error "unused"⟩⟩).1.eeg.isSome = true
    ∧ selectStrategySpec (hasEegData (some [("AF3", [1, 2])]))
        (hasEcgData none none)
        (load_models ⟨⟨false, Except.error "unused"⟩, ⟨true, Except.ok okPath⟩,
          ⟨false, Except.error "unused"⟩⟩).1.fusion.isSome
        (load_models ⟨⟨false, Except.error "unused"⟩, ⟨true, Except.ok okPath⟩,
          ⟨false, Except.error "unused"⟩⟩).1.eeg.isSome
        (load_models ⟨⟨false, Except.error "unused"⟩, ⟨true, Except.ok okPath⟩,
          ⟨false, Except.error "unused"⟩⟩).1.ecg.isSome
        false = Strategy.eegOnlyS
    ∧ predict_stress defaultOracle
        (load_models ⟨⟨false, Except.error "unused"⟩, ⟨true, Except.ok okPath⟩,
          ⟨false, Except.error "unused"⟩⟩).1
        (some [("AF3", [1, 2])]) none none none none
        = errorResult "Models not loaded"
    ∧ observedStrategy (predict_stress defaultOracle
        (load_models ⟨⟨false, Except.error "unused"⟩, ⟨true, Except.ok okPath⟩,
          ⟨false, Except.error "unused"⟩⟩).1
        (some [("AF3", [1, 2])]) none none none none) ≠ Strategy.eegOnlyS := by
  refine ⟨rfl, rfl, rfl, by decide⟩

/-- C1 (amended): provided the service's loaded flag is set (which
`load_models` ties to the fusion model having loaded) and the loaded models
do not raise, strategy selection follows the claimed strict priority table
over the six flags, with EEG usable iff the channel mapping is non-empty and
cardiac usable iff HRV or RR is non-empty (HR alone never counts); when the
flag is not set, every request yields the error result instead. -/
theorem C1_strategy_priority (o : StatOracle) (st : ServiceState)
    (eeg? : Option (List (String × List ℚ))) (hrv? rr? hr? : Option (List ℚ))
    (metrics? : Option (List (String × ℚ))) (hld : st.loaded = true)
    (hn : NoRaiseState st) :
    observedStrategy (predict_stress o st eeg? hrv? rr? hr? metrics?)
      = selectStrategySpec (hasEegData eeg?) (hasEcgData hrv? rr?)
          st.fusion.isSome st.eeg.isSome st.ecg.isSome metrics?.isSome :=
  (predict_observed o st eeg? hrv? rr? hr? metrics? hld hn).trans
    (chooseStrategy_eq_spec st (hasEegData eeg?) (hasEcgData hrv? rr?)
      metrics?.isSome)

/-- Closed instance of C1 (amended) at a concrete loaded state. -/
theorem C1_strategy_priority_witness :
    observedStrategy (predict_stress defaultOracle loadedStateFusionOnly none
        none none none (some []))
      = selectStrategySpec (hasEegData none) (hasEcgData none none)
          loadedStateFusionOnly.fusion.isSome loadedStateFusionOnly.eeg.isSome
          loadedStateFusionOnly.ecg.isSome true :=
  C1_strategy_priority defaultOracle loadedStateFusionOnly none none none none
    (some []) rfl
    (by
      refine ⟨?_, ?_, ?_⟩ <;> intro mp h <;>
        simp only [loadedStateFusionOnly] at h
      · cases h
        exact ⟨fun v => ⟨v, rfl⟩, fun v => ⟨(1/2, 1/2), rfl⟩⟩
      · cases h
      · cases h)

/-! ## C2: load failures and strategy availability -/

/-- A model/scaler pair that is either absent from disk or loads cleanly. -/
def pairOkOrAbsent (p : PairSpec) : Prop :=
  p.present = false ∨ ∃ mp, p.outcome = Except.ok mp

/-- C2 counterexample: the fusion and EEG models load successfully but the
ECG model raises during loading; the exception aborts `load_models`, leaves
`_loaded = False`, and every request — including one that would use the
successfully loaded fusion model — gets the "Models not loaded" error, so
the fusion strategy is not selectable despite loading successfully. -/
theorem C2_cx_corrupt_disables_all :
    (load_models ⟨⟨true, Except.ok okPath⟩, ⟨true, Except.ok okPath⟩,
        ⟨true, Except.error "corrupt"⟩⟩).1.fusion.isSome = true
    ∧ (load_models ⟨⟨true, Except.ok okPath⟩, ⟨true, Except.ok okPath⟩,
        ⟨true, Except.error "corrupt"⟩⟩).1.loaded = false
    ∧ (load_models ⟨⟨true, Except.ok okPath⟩, ⟨true, Except.ok okPath⟩,
        ⟨true, Except.error "corrupt"⟩⟩).2 = false
    ∧ predict_stress defaultOracle
        (load_models ⟨⟨true, Except.ok okPath⟩, ⟨true, Except.ok okPath⟩,
          ⟨true, Except.error "corrupt"⟩⟩).1
        (some [("AF3", [1, 2])]) (some [1, 2]) none none none
        = errorResult "Models not loaded" :=
  ⟨rfl, rfl, rfl, rfl⟩

/-- C2 (amended): a missing (absent-from-disk) model disables only its own
strategy, provided the fusion pair itself is present and loads cleanly and
no other load raises: then the service is loaded, each strategy path is
available exactly when its pair was present, and dispatch follows the
selection chain, so every loaded strategy remains selectable.  (When the
fusion model is missing, or any load raises, the service stays not-loaded
and no strategy is selectable — see the counterexample.) -/
theorem C2_load_isolation (d : Disk) (o : StatOracle)
    (hfp : d.fusion.present = true)
    (hfo : ∃ mp, d.fusion.outcome = Except.ok mp)
    (he : pairOkOrAbsent d.eeg) (hc : pairOkOrAbsent d.ecg) :
    (load_models d).1.loaded = true
    ∧ (load_models d).2 = true
    ∧ (load_models d).1.fusion.isSome = true
    ∧ (load_models d).1.eeg.isSome = d.eeg.present
    ∧ (load_models d).1.ecg.isSome = d.ecg.present
    ∧ (NoRaiseState (load_models d).1 →
       ∀ (eeg? : Option (List (String × List ℚ)))
         (hrv? rr? hr? : Option (List ℚ))
         (metrics? : Option (List (String × ℚ))),
         observedStrategy
             (predict_stress o (load_models d).1 eeg? hrv? rr? hr? metrics?)
           = chooseStrategy (load_models d).1 (hasEegData eeg?)
               (hasEcgData hrv? rr?) metrics?.isSome) := by
  obtain ⟨mf, hmf⟩ := hfo
  have h1 : tryLoadPair d.fusion = Except.ok (some mf) := by
    simp [tryLoadPair, hfp, hmf, Except.map]
  have h2 : ∃ oe, tryLoadPair d.eeg = Except.ok oe
      ∧ oe.isSome = d.eeg.present := by
    by_cases hep : d.eeg.present = true
    · have hco : ∃ me, d.eeg.outcome = Except.ok me := by
        rcases he with h | h
        · rw [hep] at h
          cases h
        · exact h
      obtain ⟨me, hme⟩ := hco
      exact ⟨some me, by simp [tryLoadPair, hep, hme, Except.map], by
        simp [hep]⟩
    · have hep0 : d.eeg.present = false := by
        revert hep
        cases d.eeg.present <;> simp
      exact ⟨none, by simp [tryLoadPair, hep0], by simp [hep0]⟩
  have h3 : ∃ oc, tryLoadPair d.ecg = Except.ok oc
      ∧ oc.isSome = d.ecg.present := by
    by_cases hcp : d.ecg.present = true
    · have hco : ∃ mc, d.ecg.outcome = Except.ok mc := by
        rcases hc with h | h
        · rw [hcp] at h
          cases h
        · exact h
      obtain ⟨mc, hmc⟩ := hco
      exact ⟨some mc, by simp [tryLoadPair, hcp, hmc, Except.map], by
        simp [hcp]⟩
    · have hcp0 : d.ecg.present = false := by
        revert hcp
        cases d.ecg.present <;> simp
      exact ⟨none, by simp [tryLoadPair, hcp0], by simp [hcp0]⟩
  obtain ⟨oe, h2e, h2s⟩ := h2
  obtain ⟨oc, h3e, h3s⟩ := h3
  have hload : load_models d = (⟨some mf, oe, oc, true⟩, true) := by
    simp [load_models, h1, h2e, h3e]
  refine ⟨by rw [hload], by rw [hload], by rw [hload]; rfl,
    by rw [hload]; exact h2s, by rw [hload]; exact h3s, ?_⟩
  intro hn eeg? hrv? rr? hr? metrics?
  exact predict_observed o (load_models d).1 eeg? hrv? rr? hr? metrics?
    (by rw [hload]) hn

/-- Closed instance of C2 (amended): all three pairs present and loading
cleanly gives a loaded service with all three paths available. -/
theorem C2_load_isolation_witness :
    (load_models ⟨⟨true, Except.ok okPath⟩, ⟨true, Except.ok okPath⟩,
        ⟨true, Except.ok okPath⟩⟩).1.loaded = true
    ∧ (load_models ⟨⟨true, Except.ok okPath⟩, ⟨true, Except.ok okPath⟩,
        ⟨true, Except.ok okPath⟩⟩).2 = true
    ∧ (load_models ⟨⟨true, Except.ok okPath⟩, ⟨true, Except.ok okPath⟩,
        ⟨true, Except.ok okPath⟩⟩).1.fusion.isSome = true
    ∧ (load_models ⟨⟨true, Except.ok okPath⟩, ⟨true, Except.ok okPath⟩,
        ⟨true, Except.ok okPath⟩⟩).1.eeg.isSome = true
    ∧ (load_models ⟨⟨true, Except.ok okPath⟩, ⟨true, Except.ok okPath⟩,
        ⟨true, Except.ok okPath⟩⟩).1.ecg.isSome = true :=
  ⟨(C2_load_isolation ⟨⟨true, Except.ok okPath⟩, ⟨true, Except.ok okPath⟩,
      ⟨true, Except.ok okPath⟩⟩ defaultOracle rfl ⟨okPath, rfl⟩
      (Or.inr ⟨okPath, rfl⟩) (Or.inr ⟨okPath, rfl⟩)).1,
   (C2_load_isolation ⟨⟨true, Except.ok okPath⟩, ⟨true, Except.ok okPath⟩,
      ⟨true, Except.ok okPath⟩⟩ defaultOracle rfl ⟨okPath, rfl⟩
      (Or.inr ⟨okPath, rfl⟩) (Or.inr ⟨okPath, rfl⟩)).2.1,
   (C2_load_isolation ⟨⟨true, Except.ok okPath⟩, ⟨true, Except.ok okPath⟩,
      ⟨true, Except.ok okPath⟩⟩ defaultOracle rfl ⟨okPath, rfl⟩
      (Or.inr ⟨okPath, rfl⟩) (Or.inr ⟨okPath, rfl⟩)).2.2.1,
   (C2_load_isolation ⟨⟨true, Except.ok okPath⟩, ⟨true, Except.ok okPath⟩,
      ⟨true, Except.ok okPath⟩⟩ defaultOracle rfl ⟨okPath, rfl⟩
      (Or.inr ⟨okPath, rfl⟩) (Or.inr ⟨okPath, rfl⟩)).2.2.2.1,
   (C2_load_isolation ⟨⟨true, Except.ok okPath⟩, ⟨true, Except.ok okPath⟩,
      ⟨true, Except.ok okPath⟩⟩ defaultOracle rfl ⟨okPath, rfl⟩
      (Or.inr ⟨okPath, rfl⟩) (Or.inr ⟨okPath, rfl⟩)).2.2.2.2.1⟩

/-! ## C10: contribution weights sum to 100 (± rounding) -/

lemma meanQ_nonneg {xs : List ℚ} (h : ∀ x ∈ xs, 0 ≤ x) : 0 ≤ meanQ xs :=
  div_nonneg (List.sum_nonneg h) (by positivity)

lemma varQ_nonneg (xs : List ℚ) : 0 ≤ varQ xs := by
  refine meanQ_nonneg ?_
  intro y hy
  obtain ⟨x, _, rfl⟩ := List.mem_map.mp hy
  positivity

lemma mem_ite_singleton {c : Prop} [Decidable c] {x kw : String × ℚ}
    (h : kw ∈ (if c then [x] else [])) : kw = x := by
  split at h
  · simpa using h
  · simp at h

lemma weightEntries_pos (hrv? rr? hr? : Option (List ℚ))
    (eeg? : Option (List (String × List ℚ))) :
    ∀ kw ∈ weightEntries hrv? rr? hr? eeg?, 0 < kw.2 := by
  intro kw hkw
  have v1 := varQ_nonneg (hrv?.getD [])
  have v2 := varQ_nonneg (rr?.getD [])
  have v3 := varQ_nonneg (hr?.getD [])
  rw [weightEntries] at hkw
  simp only [List.mem_append] at hkw
  rcases hkw with ((h | h) | h) | h <;> rw [mem_ite_singleton h] <;>
    simp only [] <;> linarith

lemma weightEntries_length_le (hrv? rr? hr? : Option (List ℚ))
    (eeg? : Option (List (String × List ℚ))) :
    (weightEntries hrv? rr? hr? eeg?).length ≤ 4 := by
  rw [weightEntries]
  split_ifs <;> simp

lemma weightEntries_ne_nil {hrv? rr? hr? : Option (List ℚ)}
    {eeg? : Option (List (String × List ℚ))}
    (h : usableSeries hrv? = true ∨ usableSeries rr? = true
         ∨ usableSeries hr? = true ∨ hasEegData eeg? = true) :
    weightEntries hrv? rr? hr? eeg? ≠ [] := by
  have hlen : 0 < (weightEntries hrv? rr? hr? eeg?).length := by
    rw [weightEntries]
    rcases h with h | h | h | h <;>
      simp only [h, if_true, List.length_append, List.length_singleton] <;>
      omega
  intro h0
  rw [h0] at hlen
  simp at hlen

lemma sum_map_mul_const (l : List ℚ) (c : ℚ) :
    (l.map (fun x => x * c)).sum = l.sum * c := by
  induction l with
  | nil => simp
  | cons x t ih =>
    simp [ih]
    ring

lemma sum_pct_eq_100 (w : List ℚ) (hT : w.sum ≠ 0) :
    (w.map (fun x => x / w.sum * 100)).sum = 100 := by
  have he : (fun x => x / w.sum * 100) = fun x => x * (100 / w.sum) := by
    funext x
    ring
  rw [he, sum_map_mul_const]
  field_simp

lemma sum_round1_close (l : List ℚ) :
    |(l.map round1).sum - l.sum| ≤ l.length * (1/20) := by
  induction l with
  | nil => simp
  | cons x t ih =>
    simp only [List.map_cons, List.sum_cons, List.length_cons]
    have h1 := round1_close x
    have h2 : |round1 x + (t.map round1).sum - (x + t.sum)|
        ≤ |round1 x - x| + |(t.map round1).sum - t.sum| := by
      have he : round1 x + (t.map round1).sum - (x + t.sum)
          = (round1 x - x) + ((t.map round1).sum - t.sum) := by ring
      rw [he]
      exact abs_add _ _
    push_cast
    linarith

/-- C10: when at least one modality is usable (HRV/RR/HR with ≥ 2 points or
a non-empty EEG mapping), the rounded per-modality percentage weights of
`get_feature_contributions` sum to 100 within 0.2; when none is usable the
contributions map is empty. -/
theorem C10_contribution_sum (eeg? : Option (List (String × List ℚ)))
    (hrv? rr? hr? : Option (List ℚ)) :
    ((usableSeries hrv? = true ∨ usableSeries rr? = true
      ∨ usableSeries hr? = true ∨ hasEegData eeg? = true) →
      |(((get_feature_contributions eeg? hrv? rr? hr?).contributions.map
          Prod.snd).sum) - 100| ≤ 1/5)
    ∧ ((usableSeries hrv? = false ∧ usableSeries rr? = false
        ∧ usableSeries hr? = false ∧ hasEegData eeg? = false) →
      (get_feature_contributions eeg? hrv? rr? hr?).contributions = []) := by
  constructor
  · intro h
    have hpos := weightEntries_pos hrv? rr? hr? eeg?
    have hne := weightEntries_ne_nil h
    have hTpos : 0 < ((weightEntries hrv? rr? hr? eeg?).map Prod.snd).sum := by
      refine List.sum_pos _ ?_ ?_
      · intro a ha
        obtain ⟨kw, hkw, rfl⟩ := List.mem_map.mp ha
        exact hpos kw hkw
      · intro h0
        exact hne (by simpa using h0)
    have hcon : (get_feature_contributions eeg? hrv? rr? hr?).contributions
        = (weightEntries hrv? rr? hr? eeg?).map
            (fun kw => (kw.1, round1 (kw.2
              / ((weightEntries hrv? rr? hr? eeg?).map Prod.snd).sum * 100))) := by
      rw [get_feature_contributions]
      simp only [if_pos hTpos]
    rw [hcon, List.map_map]
    have he3 : (Prod.snd ∘ fun kw : String × ℚ => (kw.1, round1 (kw.2
        / ((weightEntries hrv? rr? hr? eeg?).map Prod.snd).sum * 100)))
        = round1 ∘ ((fun x => x
            / ((weightEntries hrv? rr? hr? eeg?).map Prod.snd).sum * 100)
          ∘ Prod.snd) := rfl
    rw [he3, ← List.map_map, ← List.map_map]
    set v := (weightEntries hrv? rr? hr? eeg?).map Prod.snd with hv
    have hsum : (v.map (fun x => x / v.sum * 100)).sum = 100 :=
      sum_pct_eq_100 v (ne_of_gt hTpos)
    have hlen : (v.map (fun x => x / v.sum * 100)).length ≤ 4 := by
      rw [List.length_map, hv, List.length_map]
      exact weightEntries_length_le hrv? rr? hr? eeg?
    have hclose := sum_round1_close (v.map (fun x => x / v.sum * 100))
    rw [hsum] at hclose
    have hlen2 : ((v.map (fun x => x / v.sum * 100)).length : ℚ) * (1/20)
        ≤ 1/5 := by
      have : ((v.map (fun x => x / v.sum * 100)).length : ℚ) ≤ 4 := by
        exact_mod_cast hlen
      linarith
    exact le_trans hclose hlen2
  · intro ⟨ha, hb, hc, hd⟩
    rw [get_feature_contributions]
    simp [weightEntries, ha, hb, hc, hd]

/-- Closed instance of C10 at a single usable HRV series. -/
theorem C10_contribution_sum_witness :
    |(((get_feature_contributions none (some [40, 60]) none none).contributions.map
        Prod.snd).sum) - 100| ≤ 1/5 :=
  (C10_contribution_sum none (some [40, 60]) none none).1 (Or.inl rfl)
